import Mathlib

/-!
Verification development for the e-commerce scraper repository.

Part 1 embeds `src/src/scrapers/scraper_factory.py`: URL host extraction
(a model of Python `urllib.parse.urlparse` restricted to the `netloc`
component), the `SCRAPER_MAP` registry, `create_scraper`,
`_extract_domain`, `_get_scraper_class`, `register_scraper` and
`get_supported_domains`.  Python classes become the inductive
`ScraperClass`; an adapter instance is identified with its class.  The
mutable class attribute `SCRAPER_MAP` (an insertion-ordered dict) becomes
an explicit association list threaded through the functions; dict
assignment keeps the position of an existing key and appends a new one,
exactly as `register_scraper` below does.

Part 2 models the Base Scraper lifecycle (`base_scraper.py` is not part
of the visible sources; only its callers are).  Those definitions are
modelled from the spec and say so in their doc comments.
-/

/-- The scraper classes of the repository: `AmazonScraper`, `DarazScraper`
(the two entries of `SCRAPER_MAP`), plus arbitrary further classes a
caller may register at runtime via `register_scraper`. -/
inductive ScraperClass : Type where
  | amazonScraper : ScraperClass
  | darazScraper : ScraperClass
  | extra : Nat → ScraperClass
deriving DecidableEq

/-- The registry state: Python dict `domain pattern -> scraper class`,
as an insertion-ordered association list. -/
abbrev Registry := List (String × ScraperClass)

/-- The initial value of `ScraperFactory.SCRAPER_MAP`. -/
def SCRAPER_MAP : Registry :=
  [("amazon", ScraperClass.amazonScraper), ("daraz", ScraperClass.darazScraper)]

/-- Python `urlsplit` first removes every tab, carriage return and
line feed from the URL. -/
def removeUnsafe (cs : List Char) : List Char :=
  cs.filter (fun c => !(c == '\t' || c == '\r' || c == '\n'))

/-- The characters Python allows inside a URL scheme
(ASCII letters, digits, `+`, `-`, `.`). -/
def scheme_char (c : Char) : Bool :=
  c.isAlpha || c.isDigit || c == '+' || c == '-' || c == '.'

/-- Split a character list at the first colon, if any: models
Python `url.find ':'`. -/
def splitColon : List Char → Option (List Char × List Char)
  | [] => none
  | c :: rest =>
    if c == ':' then some ([], rest)
    else
      match splitColon rest with
      | some (pre, post) => some (c :: pre, post)
      | none => none

/-- Drop a leading `scheme:` from the URL exactly when Python `urlsplit`
does: the first colon has a nonempty run of scheme characters before it
whose first character is an ASCII letter. -/
def afterScheme (cs : List Char) : List Char :=
  match splitColon cs with
  | some (c :: pre, post) =>
    if c.isAlpha && (c :: pre).all scheme_char then post else cs
  | some ([], _) => cs
  | none => cs

/-- Python `urlsplit` netloc: present only after a leading `//`, running
up to the first `/`, `?` or `#`. -/
def netlocOf : List Char → List Char
  | '/' :: '/' :: rest => rest.takeWhile (fun c => !(c == '/' || c == '?' || c == '#'))
  | _ => []

/-- The raw netloc characters `urlparse` would assign for this URL,
before the bracket validity check. -/
def netlocRaw (url : String) : List Char :=
  netlocOf (afterScheme (removeUnsafe url.data))

/-- Boolean character membership in a list. -/
def hasChar (x : Char) : List Char → Bool
  | [] => false
  | c :: rest => c == x || hasChar x rest

/-- Python `urlsplit` raises `ValueError "Invalid IPv6 URL"` when exactly
one of `[`, `]` occurs in the netloc. -/
def bracketMismatch (n : List Char) : Bool :=
  hasChar '[' n != hasChar ']' n

/-- The `www.`-stripping step of `_extract_domain`:
`if domain.startswith('www.'): domain = domain[4:]`. -/
def dropWWW (cs : List Char) : List Char :=
  if cs.take 4 = ['w', 'w', 'w', '.'] then cs.drop 4 else cs

/-- `ScraperFactory._extract_domain`: `urlparse(url).netloc.lower()` with
the `www.` label stripped; the `except` branch (the only raising operation
in the `try` block is `urlparse`, which raises on a bracket mismatch in
the netloc) returns `None`, modelled as `none`. -/
def extract_domain (url : String) : Option String :=
  let n := netlocRaw url
  if bracketMismatch n then none
  else some (String.mk (dropWWW (n.map Char.toLower)))

/-- `needle` matches at the head of `hay`. -/
def leadsL : List Char → List Char → Bool
  | [], _ => true
  | _ :: _, [] => false
  | a :: n, b :: h => a == b && leadsL n h

/-- `needle` occurs contiguously somewhere in `hay`:
Python `needle in hay` on strings, list form. -/
def withinL (n : List Char) : List Char → Bool
  | [] => n.isEmpty
  | c :: t => leadsL n (c :: t) || withinL n t

/-- Python substring test `needle in hay`. -/
def strWithin (needle hay : String) : Bool := withinL needle.data hay.data

/-- `ScraperFactory._get_scraper_class`: first registered pattern that is
a substring of the domain wins. -/
def get_scraper_class (m : Registry) (domain : String) : Option ScraperClass :=
  match m with
  | [] => none
  | (k, c) :: rest => if strWithin k domain then some c else get_scraper_class rest domain

/-- `ScraperFactory.create_scraper`: extract the domain; a falsy domain
(parse failure or empty netloc) gives `None`; otherwise dispatch through
`_get_scraper_class`, instantiating the class on a hit. -/
def create_scraper (m : Registry) (url : String) : Option ScraperClass :=
  match extract_domain url with
  | none => none
  | some d => if d = "" then none else get_scraper_class m d

/-- `ScraperFactory.register_scraper`: Python dict assignment
`SCRAPER_MAP[domain_pattern] = scraper_class` — an existing key keeps its
position and gets the new value, a new key is appended. -/
def register_scraper (m : Registry) (p : String) (c : ScraperClass) : Registry :=
  match m with
  | [] => [(p, c)]
  | (k, v) :: rest => if k = p then (k, c) :: rest else (k, v) :: register_scraper rest p c

/-- `ScraperFactory.get_supported_domains`: `list(SCRAPER_MAP.keys())`. -/
def get_supported_domains (m : Registry) : List String := m.map Prod.fst

/-- Python dict lookup `SCRAPER_MAP[p]`. -/
def lookupReg (m : Registry) (p : String) : Option ScraperClass :=
  match m with
  | [] => none
  | (k, c) :: rest => if k = p then some c else lookupReg rest p

/-- A sequence of `register_scraper` calls, applied in order. -/
def registerAll (m : Registry) (regs : List (String × ScraperClass)) : Registry :=
  regs.foldl (fun acc pc => register_scraper acc pc.1 pc.2) m

/-- The patterns of a registration sequence that are new relative to
`seen`, in first-registration order. -/
def newKeys (seen : List String) : List String → List String
  | [] => []
  | p :: ps => if p ∈ seen then newKeys seen ps else p :: newKeys (seen ++ [p]) ps

/-- The dispatch rule in the words of the spec: return the constructor of
the first registered pattern (in registration order) occurring as a
substring of the host. -/
def spec_first_match (m : Registry) (host : String) : Option ScraperClass :=
  Option.map Prod.snd (m.find? (fun pc => strWithin pc.1 host))

/-- Modelled from the spec: the Scrape Result aggregate of §3 —
`base_scraper.py` and the result model are not among the visible sources.
Products are kept abstract in `α`; `errors` holds the human-readable
error descriptions, one per failed item or failed page fetch.  Duration
and source tag are omitted: no claim mentions them. -/
structure ScrapingResult (α : Type) where
  products : List α
  successful : Nat
  failed : Nat
  errors : List String
deriving DecidableEq

/-- Modelled from the spec: derived success rate
`successful / (successful + failed) * 100`, and `0` when no attempts were
made (§3, avoid division by zero); exact rational, rounding is display
only. -/
def success_rate {α : Type} (r : ScrapingResult α) : ℚ :=
  if r.successful + r.failed = 0 then 0
  else (r.successful : ℚ) / ((r.successful : ℚ) + (r.failed : ℚ)) * 100

/-- Modelled from the spec: the empty Scrape Result created at the start
of `scrape()`. -/
def emptyResult {α : Type} : ScrapingResult α := ⟨[], 0, 0, []⟩

/-- Modelled from the spec: the error description recorded for a failed
item, carrying the item position for diagnosis (§4.2 step 4). -/
def mkItemError (idx : Nat) (msg : String) : String :=
  "item " ++ toString idx ++ ": " ++ msg

/-- Modelled from the spec: the page-level error recorded when a page
fetch fails after its retries (§4.2 step 2). -/
def mkPageError (page : Nat) : String :=
  "page " ++ toString page ++ ": fetch failed"

/-- Modelled from the spec: per-item extraction over one page (§4.2
step 4).  Each listing item is attempted in isolation: `idx` is the item
position on the page; an `Except.ok` appends the Product Record and
increments `successful`, an `Except.error` increments `failed` and
records one error naming the position — it aborts nothing. -/
def processItemsFrom {α : Type} (idx : Nat) (items : List (Except String α))
    (r : ScrapingResult α) : ScrapingResult α :=
  match items with
  | [] => r
  | Except.ok p :: rest =>
    processItemsFrom (idx + 1) rest
      { r with products := r.products ++ [p], successful := r.successful + 1 }
  | Except.error e :: rest =>
    processItemsFrom (idx + 1) rest
      { r with failed := r.failed + 1, errors := r.errors ++ [mkItemError idx e] }

/-- Modelled from the spec: the pagination loop of `scrape()` (§4.2 steps
2, 3, 4 and 6).  `site p` abstracts fetching page `p` and extracting its
listing items: `none` is a page fetch that still fails after the
configured retries (a page error is recorded and pagination stops),
`some items` is the per-item extraction outcome of a fetched page; an
empty item list stops pagination.  `fuel` is the number of pages the
cursor may still visit before the pagination limit; the returned list is
the pages visited, in order.  Inter-request delays are politeness only
and are not modelled. -/
def scrapeGo {α : Type} (site : Nat → Option (List (Except String α))) :
    Nat → Nat → ScrapingResult α → List Nat → ScrapingResult α × List Nat
  | 0, _, r, visited => (r, visited)
  | fuel + 1, page, r, visited =>
    match site page with
    | none => ({ r with errors := r.errors ++ [mkPageError page] }, visited ++ [page])
    | some items =>
      if items.isEmpty then (r, visited ++ [page])
      else scrapeGo site fuel (page + 1) (processItemsFrom 0 items r) (visited ++ [page])

/-- Modelled from the spec: `scrape(url)` (§4.2) — start from the empty
Result with the Pagination Cursor at page 1 and at most
`pagination_limit` pages; returns the final Result together with the
pages visited. -/
def scrape {α : Type} (site : Nat → Option (List (Except String α)))
    (pagination_limit : Nat) : ScrapingResult α × List Nat :=
  scrapeGo site pagination_limit 1 emptyResult []

/-- Extraction attempts offered by one visited page: the number of
listing items the adapter yields there (a failed fetch offers none). -/
def pageAttempts {α : Type} (site : Nat → Option (List (Except String α)))
    (p : Nat) : Nat :=
  match site p with
  | some items => items.length
  | none => 0

/-- Extraction attempts made across a list of visited pages. -/
def totalAttempts {α : Type} (site : Nat → Option (List (Except String α)))
    (visited : List Nat) : Nat :=
  (visited.map (pageAttempts site)).sum

/-- Modelled from the spec: session bookkeeping for the managed scraper
scope — how many times a session was acquired and released. -/
structure SessionState where
  acquired : Nat
  released : Nat
deriving DecidableEq

/-- Modelled from the spec: the three ways the body of the managed scope
can terminate — normal return of `scrape()`, an exception raised
mid-`scrape()`, or an external interruption. -/
inductive BodyOutcome (α : Type) : Type where
  | normal : α → BodyOutcome α
  | raised : String → BodyOutcome α
  | interrupted : BodyOutcome α

/-- Acquire the network session on scope entry. -/
def acquireSession (st : SessionState) : SessionState :=
  { st with acquired := st.acquired + 1 }

/-- Release the network session on scope exit. -/
def releaseSession (st : SessionState) : SessionState :=
  { st with released := st.released + 1 }

/-- Modelled from the spec: the managed scraper scope `with scraper:` of
`main.py` (§4.2 scoped resource, §9 context-managed scoping) —
`base_scraper.py`, which implements scope entry and exit, is not among
the visible sources.  Entry acquires the session, the body runs to one of
its three terminations while possibly touching the state, and exit
releases the session unconditionally before the outcome propagates. -/
def managedScrape {α : Type} (body : SessionState → BodyOutcome α × SessionState)
    (st : SessionState) : BodyOutcome α × SessionState :=
  let st1 := acquireSession st
  let res := body st1
  (res.1, releaseSession res.2)

lemma get_scraper_class_eq_find (m : Registry) (d : String) :
    get_scraper_class m d = spec_first_match m d := by
  induction m with
  | nil => rfl
  | cons kc rest ih =>
    obtain ⟨k, c⟩ := kc
    cases h : strWithin k d with
    | true => simp [get_scraper_class, spec_first_match, List.find?, h]
    | false =>
      simpa [get_scraper_class, spec_first_match, List.find?, h] using ih

lemma get_scraper_class_eq_none (m : Registry) (d : String)
    (h : ∀ pc ∈ m, strWithin pc.1 d = false) : get_scraper_class m d = none := by
  induction m with
  | nil => rfl
  | cons kc rest ih =>
    obtain ⟨k, c⟩ := kc
    have hk : strWithin k d = false := h (k, c) (List.mem_cons_self _ _)
    simp only [get_scraper_class, hk, if_neg Bool.false_ne_true]
    exact ih (fun pc hpc => h pc (List.mem_cons_of_mem _ hpc))

/-- C1: `create_scraper` parses the host, strips a leading `www.` label
and returns the adapter of the first registered pattern (in registration
order) that is a substring of the remaining host; in particular host
`pk.daraz.pk` against pattern `daraz` yields the Daraz adapter.  (The
empty-host guard of the code is the subject of C9 and is excluded here by
hypothesis.) -/
theorem c1_dispatch_first_match :
    (∀ (m : Registry) (url host : String), extract_domain url = some host → host ≠ "" →
      create_scraper m url = spec_first_match m host)
    ∧ create_scraper SCRAPER_MAP "https://pk.daraz.pk/smartphones/"
        = some ScraperClass.darazScraper := by
  constructor
  · intro m url host hdom hne
    simp [create_scraper, hdom, hne, get_scraper_class_eq_find]
  · decide

theorem c1_witness :
    extract_domain "https://pk.daraz.pk/smartphones/" = some "pk.daraz.pk"
    ∧ create_scraper SCRAPER_MAP "https://pk.daraz.pk/smartphones/"
        = spec_first_match SCRAPER_MAP "pk.daraz.pk" :=
  ⟨by decide, c1_dispatch_first_match.1 SCRAPER_MAP _ _ (by decide) (by decide)⟩

/-- C2: whenever the URL fails to parse, parses to an empty host, or
parses to a host matched by no registered pattern, `create_scraper`
returns the Unsupported outcome `none`; the embedding is a total
function, the one raising operation of the code (`urlparse`) being caught
and folded into the `none` case of `extract_domain`. -/
theorem c2_unsupported_is_none :
    ∀ (m : Registry) (url : String),
      (extract_domain url = none ∨ extract_domain url = some "" ∨
        (∃ d, extract_domain url = some d ∧ ∀ pc ∈ m, strWithin pc.1 d = false)) →
      create_scraper m url = none := by
  intro m url h
  rcases h with h | h | ⟨d, hd, hnone⟩
  · simp [create_scraper, h]
  · simp [create_scraper, h]
  · by_cases hde : d = ""
    · simp [create_scraper, hd, hde]
    · simp [create_scraper, hd, hde, get_scraper_class_eq_none m d hnone]

theorem c2_witness :
    create_scraper SCRAPER_MAP "https://www.example-shop.com/products" = none :=
  c2_unsupported_is_none SCRAPER_MAP _
    (Or.inr (Or.inr ⟨"example-shop.com", by decide, by decide⟩))

/-- C9: a URL whose parsed host component is empty — such as the
scheme-less `amazon.com/s?k=laptop` — gives the Unsupported outcome
`none`, even though the string itself contains the registered pattern
`amazon` as a substring. -/
theorem c9_empty_host_unsupported :
    (∀ (m : Registry) (url : String),
      extract_domain url = some "" → create_scraper m url = none)
    ∧ create_scraper SCRAPER_MAP "amazon.com/s?k=laptop" = none
    ∧ strWithin "amazon" "amazon.com/s?k=laptop" = true := by
  refine ⟨?_, by decide, by decide⟩
  intro m url h
  simp [create_scraper, h]

theorem c9_witness :
    extract_domain "amazon.com/s?k=laptop" = some ""
    ∧ create_scraper SCRAPER_MAP "amazon.com/s?k=laptop" = none :=
  ⟨by decide, c9_empty_host_unsupported.1 SCRAPER_MAP _ (by decide)⟩

lemma lookupReg_register (m : Registry) (p : String) (c : ScraperClass) :
    lookupReg (register_scraper m p c) p = some c := by
  induction m with
  | nil => simp [register_scraper, lookupReg]
  | cons kc rest ih =>
    obtain ⟨k, v⟩ := kc
    by_cases hk : k = p
    · simp [register_scraper, hk, lookupReg]
    · simp [register_scraper, hk, lookupReg, ih]

lemma get_scraper_class_register (m : Registry) (p : String) (c : ScraperClass)
    (d : String) (hp : strWithin p d = true) (hm : get_scraper_class m d = none) :
    get_scraper_class (register_scraper m p c) d = some c := by
  induction m with
  | nil => simp [register_scraper, get_scraper_class, hp]
  | cons kc rest ih =>
    obtain ⟨k, v⟩ := kc
    have hk : strWithin k d = false := by
      cases h : strWithin k d with
      | false => rfl
      | true => simp [get_scraper_class, h] at hm
    have hrest : get_scraper_class rest d = none := by
      simpa [get_scraper_class, hk] using hm
    by_cases hkp : k = p
    · exact absurd hp (by simp [hkp ▸ hk])
    · simp [register_scraper, hkp, get_scraper_class, hk, ih hrest]

/-- C7: `register_scraper` extends the registry — afterwards the pattern
maps to the new constructor (overwriting any previous binding), and a
dispatch on a host that the new pattern matches but no previously
registered pattern matched now returns the newly registered adapter. -/
theorem c7_register_extends :
    ∀ (m : Registry) (p : String) (c : ScraperClass),
      lookupReg (register_scraper m p c) p = some c
      ∧ (∀ d, strWithin p d = true → get_scraper_class m d = none →
          get_scraper_class (register_scraper m p c) d = some c) := by
  intro m p c
  exact ⟨lookupReg_register m p c, fun d h1 h2 => get_scraper_class_register m p c d h1 h2⟩

theorem c7_witness :
    lookupReg (register_scraper SCRAPER_MAP "shopify" (ScraperClass.extra 0)) "shopify"
      = some (ScraperClass.extra 0)
    ∧ get_scraper_class (register_scraper SCRAPER_MAP "shopify" (ScraperClass.extra 0))
        "shop.shopify.com" = some (ScraperClass.extra 0) :=
  ⟨(c7_register_extends SCRAPER_MAP "shopify" (ScraperClass.extra 0)).1,
   (c7_register_extends SCRAPER_MAP "shopify" (ScraperClass.extra 0)).2
     "shop.shopify.com" (by decide) (by decide)⟩

lemma register_keys (m : Registry) (p : String) (c : ScraperClass) :
    get_supported_domains (register_scraper m p c)
      = if p ∈ get_supported_domains m then get_supported_domains m
        else get_supported_domains m ++ [p] := by
  induction m with
  | nil => simp [register_scraper, get_supported_domains]
  | cons kc rest ih =>
    obtain ⟨k, v⟩ := kc
    by_cases hk : k = p
    · simp [register_scraper, hk, get_supported_domains]
    · have hne : p ≠ k := fun h => hk h.symm
      simp only [get_supported_domains] at ih ⊢
      simp only [register_scraper, if_neg hk, List.map_cons]
      rw [ih]
      by_cases hp : p ∈ List.map Prod.fst rest
      · rw [if_pos hp, if_pos (by simp [hp])]
      · rw [if_neg hp, if_neg (by simp [hne, hp]), List.cons_append]

lemma registerAll_keys (regs : List (String × ScraperClass)) :
    ∀ m : Registry, get_supported_domains (registerAll m regs)
      = get_supported_domains m
        ++ newKeys (get_supported_domains m) (regs.map Prod.fst) := by
  induction regs with
  | nil => intro m; simp [registerAll, newKeys]
  | cons pc ps ih =>
    intro m
    obtain ⟨p, c⟩ := pc
    have hstep : registerAll m ((p, c) :: ps) = registerAll (register_scraper m p c) ps := rfl
    rw [hstep, ih (register_scraper m p c), register_keys]
    by_cases hp : p ∈ get_supported_domains m
    · simp [newKeys, hp]
    · simp [newKeys, hp, List.append_assoc]

/-- C8: the order of `get_supported_domains` follows the registration
order — a newly registered pattern is appended after all earlier
patterns, and re-registering an existing pattern keeps the position of
its first registration (Python dict insertion order); consequently a
whole sequence of calls yields the patterns in the order of their first
registrations. -/
theorem c8_supported_domains_order :
    (∀ (m : Registry) (p : String) (c : ScraperClass),
      get_supported_domains (register_scraper m p c)
        = if p ∈ get_supported_domains m then get_supported_domains m
          else get_supported_domains m ++ [p])
    ∧ (∀ (m : Registry) (regs : List (String × ScraperClass)),
      get_supported_domains (registerAll m regs)
        = get_supported_domains m
          ++ newKeys (get_supported_domains m) (regs.map Prod.fst)) :=
  ⟨register_keys, fun m regs => registerAll_keys regs m⟩

lemma toLower_isUpper_false (c : Char) : (Char.toLower c).isUpper = false := by
  unfold Char.toLower
  by_cases h : c.toNat ≥ 65 ∧ c.toNat ≤ 90
  · simp only [if_pos h]
    obtain ⟨h1, h2⟩ := h
    generalize hg : c.toNat = n at h1 h2
    interval_cases n <;> decide
  · simp only [if_neg h]
    unfold Char.isUpper
    have e1 : decide (c.val ≥ 65) = decide (65 ≤ c.toNat) := decide_eq_decide.mpr Iff.rfl
    have e2 : decide (c.val ≤ 90) = decide (c.toNat ≤ 90) := decide_eq_decide.mpr Iff.rfl
    rw [e1, e2]
    by_cases h1 : 65 ≤ c.toNat
    · by_cases h2 : c.toNat ≤ 90
      · exact absurd ⟨h1, h2⟩ h
      · simp [h2]
    · simp [h1]

lemma toLower_eq_lb (c : Char) : (Char.toLower c = '[') ↔ (c = '[') := by
  unfold Char.toLower
  by_cases h : c.toNat ≥ 65 ∧ c.toNat ≤ 90
  · simp only [if_pos h]
    obtain ⟨h1, h2⟩ := h
    generalize hg : c.toNat = n at h1 h2 ⊢
    interval_cases n <;>
      exact iff_of_false (by decide) (fun hc => by subst hc; exact absurd hg (by decide))
  · simp only [if_neg h]

lemma toLower_eq_rb (c : Char) : (Char.toLower c = ']') ↔ (c = ']') := by
  unfold Char.toLower
  by_cases h : c.toNat ≥ 65 ∧ c.toNat ≤ 90
  · simp only [if_pos h]
    obtain ⟨h1, h2⟩ := h
    generalize hg : c.toNat = n at h1 h2 ⊢
    interval_cases n <;>
      exact iff_of_false (by decide) (fun hc => by subst hc; exact absurd hg (by decide))
  · simp only [if_neg h]

lemma hasChar_lb_map_lower (l : List Char) :
    hasChar '[' (l.map Char.toLower) = hasChar '[' l := by
  induction l with
  | nil => rfl
  | cons c t ih =>
    have : (Char.toLower c == '[') = (c == '[') := by
      cases h : c == '['
      · simp only [beq_eq_false_iff_ne] at h
        simpa [beq_eq_false_iff_ne, toLower_eq_lb] using h
      · simp only [beq_iff_eq] at h
        simp [h, toLower_eq_lb]
    simp [hasChar, this, ih]

lemma hasChar_rb_map_lower (l : List Char) :
    hasChar ']' (l.map Char.toLower) = hasChar ']' l := by
  induction l with
  | nil => rfl
  | cons c t ih =>
    have : (Char.toLower c == ']') = (c == ']') := by
      cases h : c == ']'
      · simp only [beq_eq_false_iff_ne] at h
        simpa [beq_eq_false_iff_ne, toLower_eq_rb] using h
      · simp only [beq_iff_eq] at h
        simp [h, toLower_eq_rb]
    simp [hasChar, this, ih]

lemma mem_dropWWW {a : Char} {l : List Char} (h : a ∈ dropWWW l) : a ∈ l := by
  simp only [dropWWW] at h
  by_cases hw : l.take 4 = ['w', 'w', 'w', '.']
  · rw [if_pos hw] at h
    exact List.mem_of_mem_drop h
  · rwa [if_neg hw] at h

lemma extract_domain_no_upper (url host : String)
    (h : extract_domain url = some host) : ∀ ch ∈ host.data, ch.isUpper = false := by
  intro ch hch
  simp only [extract_domain] at h
  by_cases hb : bracketMismatch (netlocRaw url)
  · simp [hb] at h
  · rw [if_neg (by simp [hb])] at h
    have hdata : host.data = dropWWW ((netlocRaw url).map Char.toLower) := by
      have := Option.some.inj h
      rw [← this]
    rw [hdata] at hch
    have hmem : ch ∈ (netlocRaw url).map Char.toLower := mem_dropWWW hch
    obtain ⟨c, _, hc⟩ := List.mem_map.mp hmem
    rw [← hc]
    exact toLower_isUpper_false c

lemma leadsL_subset {n h : List Char} (hl : leadsL n h = true) : ∀ a ∈ n, a ∈ h := by
  induction n generalizing h with
  | nil => intro a ha; simp at ha
  | cons x xs ih =>
    cases h with
    | nil => simp [leadsL] at hl
    | cons y ys =>
      simp only [leadsL, Bool.and_eq_true, beq_iff_eq] at hl
      intro a ha
      rcases List.mem_cons.mp ha with rfl | ha2
      · simp [hl.1]
      · exact List.mem_cons_of_mem _ (ih hl.2 a ha2)

lemma withinL_subset {n h : List Char} (hw : withinL n h = true) : ∀ a ∈ n, a ∈ h := by
  induction h with
  | nil =>
    intro a ha
    simp only [withinL, List.isEmpty_iff] at hw
    rw [hw] at ha
    simp at ha
  | cons c t ih =>
    simp only [withinL, Bool.or_eq_true] at hw
    rcases hw with h1 | h2
    · exact leadsL_subset h1
    · intro a ha
      exact List.mem_cons_of_mem _ (ih h2 a ha)

lemma upper_pattern_never_matches {p d : String} (hp : ∃ ch ∈ p.data, ch.isUpper = true)
    (hd : ∀ ch ∈ d.data, ch.isUpper = false) : strWithin p d = false := by
  obtain ⟨ch, hchp, hup⟩ := hp
  cases hw : strWithin p d
  · rfl
  · exfalso
    have hmem : ch ∈ d.data := withinL_subset hw ch hchp
    rw [hd ch hmem] at hup
    exact Bool.false_ne_true hup

lemma get_scraper_class_append_skip (m1 m2 : Registry) (p : String) (c : ScraperClass)
    (d : String) (hp : strWithin p d = false) :
    get_scraper_class (m1 ++ (p, c) :: m2) d = get_scraper_class (m1 ++ m2) d := by
  induction m1 with
  | nil => simp [get_scraper_class, hp]
  | cons kc rest ih =>
    obtain ⟨k, v⟩ := kc
    by_cases hk : strWithin k d <;> simp [get_scraper_class, hk, ih]

lemma extract_domain_lower_netloc (u v : String)
    (h : (netlocRaw u).map Char.toLower = (netlocRaw v).map Char.toLower) :
    extract_domain u = extract_domain v := by
  have hlb : hasChar '[' (netlocRaw u) = hasChar '[' (netlocRaw v) := by
    rw [← hasChar_lb_map_lower, h, hasChar_lb_map_lower]
  have hrb : hasChar ']' (netlocRaw u) = hasChar ']' (netlocRaw v) := by
    rw [← hasChar_rb_map_lower, h, hasChar_rb_map_lower]
  simp only [extract_domain, bracketMismatch, hlb, hrb, h]

/-- C10: factory dispatch is case-insensitive in the URL host — every
extracted host is free of ASCII uppercase letters (the netloc is
lowercased before matching), two URLs whose netlocs agree up to ASCII
case dispatch identically, and a pattern registered with an uppercase
letter matches no URL at all (removing it never changes any dispatch). -/
theorem c10_case_insensitive :
    (∀ url host, extract_domain url = some host → ∀ ch ∈ host.data, ch.isUpper = false)
    ∧ (∀ (m : Registry) (u v : String),
        (netlocRaw u).map Char.toLower = (netlocRaw v).map Char.toLower →
        create_scraper m u = create_scraper m v)
    ∧ (∀ (m1 m2 : Registry) (p : String) (c : ScraperClass) (url : String),
        (∃ ch ∈ p.data, ch.isUpper = true) →
        create_scraper (m1 ++ (p, c) :: m2) url = create_scraper (m1 ++ m2) url) := by
  refine ⟨extract_domain_no_upper, ?_, ?_⟩
  · intro m u v h
    simp [create_scraper, extract_domain_lower_netloc u v h]
  · intro m1 m2 p c url hp
    cases hd : extract_domain url with
    | none => simp [create_scraper, hd]
    | some d =>
      by_cases hde : d = ""
      · simp [create_scraper, hd, hde]
      · have hnup : ∀ ch ∈ d.data, ch.isUpper = false := extract_domain_no_upper url d hd
        have hskip : strWithin p d = false := upper_pattern_never_matches hp hnup
        simp [create_scraper, hd, hde, get_scraper_class_append_skip m1 m2 p c d hskip]

theorem c10_witness :
    (∀ ch ∈ String.data "pk.daraz.pk", ch.isUpper = false)
    ∧ create_scraper SCRAPER_MAP "https://www.DARAZ.pk/a"
        = create_scraper SCRAPER_MAP "https://www.daraz.pk/a"
    ∧ create_scraper ([] ++ ("Amazon", ScraperClass.extra 1) :: []) "https://www.amazon.com/s"
        = create_scraper ([] ++ []) "https://www.amazon.com/s" :=
  ⟨c10_case_insensitive.1 "https://PK.Daraz.pk/x" "pk.daraz.pk" (by decide),
   c10_case_insensitive.2.1 SCRAPER_MAP _ _ (by decide),
   c10_case_insensitive.2.2 [] [] "Amazon" (ScraperClass.extra 1) _ ⟨'A', by decide, by decide⟩⟩

lemma processItemsFrom_counts {α : Type} (items : List (Except String α)) :
    ∀ (idx : Nat) (r : ScrapingResult α),
      (processItemsFrom idx items r).successful + (processItemsFrom idx items r).failed
        = r.successful + r.failed + items.length := by
  induction items with
  | nil => intro idx r; simp [processItemsFrom]
  | cons it rest ih =>
    intro idx r
    cases it with
    | ok p =>
      simp only [processItemsFrom, List.length_cons]
      rw [ih]
      simp only []
      omega
    | error e =>
      simp only [processItemsFrom, List.length_cons]
      rw [ih]
      simp only []
      omega

lemma totalAttempts_append {α : Type} (site : Nat → Option (List (Except String α)))
    (v1 v2 : List Nat) :
    totalAttempts site (v1 ++ v2) = totalAttempts site v1 + totalAttempts site v2 := by
  simp [totalAttempts]

lemma scrapeGo_counts {α : Type} (site : Nat → Option (List (Except String α)))
    (fuel : Nat) : ∀ (page : Nat) (r : ScrapingResult α) (visited : List Nat),
      (scrapeGo site fuel page r visited).1.successful
          + (scrapeGo site fuel page r visited).1.failed
          + totalAttempts site visited
        = r.successful + r.failed
          + totalAttempts site (scrapeGo site fuel page r visited).2 := by
  induction fuel with
  | zero => intro page r visited; simp [scrapeGo]
  | succ f ih =>
    intro page r visited
    cases hs : site page with
    | none =>
      simp [scrapeGo, hs, totalAttempts_append, totalAttempts, pageAttempts]
    | some items =>
      cases he : items.isEmpty with
      | true =>
        have hnil : items = [] := by simpa using he
        simp [scrapeGo, hs, he, totalAttempts_append, totalAttempts, pageAttempts, hnil]
      | false =>
        have hstep : scrapeGo site (f + 1) page r visited
            = scrapeGo site f (page + 1) (processItemsFrom 0 items r) (visited ++ [page]) := by
          simp [scrapeGo, hs, he]
        rw [hstep]
        have h1 := ih (page + 1) (processItemsFrom 0 items r) (visited ++ [page])
        have h2 := processItemsFrom_counts items 0 r
        rw [totalAttempts_append] at h1
        have h3 : totalAttempts site [page] = items.length := by
          simp [totalAttempts, pageAttempts, hs]
        omega

/-- C3: for every `scrape()` run, `successful + failed` equals the number
of extraction attempts made across all visited pages, and the success
rate is `0` whenever `successful + failed = 0` (no division by zero). -/
theorem c3_counts_invariant :
    (∀ (α : Type) (site : Nat → Option (List (Except String α))) (limit : Nat),
      (scrape site limit).1.successful + (scrape site limit).1.failed
        = totalAttempts site (scrape site limit).2)
    ∧ (∀ (α : Type) (r : ScrapingResult α),
        r.successful + r.failed = 0 → success_rate r = 0) := by
  constructor
  · intro α site limit
    have h := scrapeGo_counts site limit 1 emptyResult []
    simp only [totalAttempts, List.map_nil, List.sum_nil, emptyResult] at h
    simp only [scrape, emptyResult, totalAttempts]
    omega
  · intro α r h
    simp [success_rate, h]

theorem c3_witness :
    ((scrape (fun _ => some ([] : List (Except String Nat))) 3).1.successful
        + (scrape (fun _ => some ([] : List (Except String Nat))) 3).1.failed
      = totalAttempts (fun _ => some ([] : List (Except String Nat)))
          (scrape (fun _ => some ([] : List (Except String Nat))) 3).2)
    ∧ success_rate (ScrapingResult.mk ([] : List Nat) 0 0 []) = 0 :=
  ⟨c3_counts_invariant.1 Nat (fun _ => some []) 3,
   c3_counts_invariant.2 Nat (ScrapingResult.mk [] 0 0 []) rfl⟩

lemma processItemsFrom_ok_front {α : Type} (as : List α) :
    ∀ (idx : Nat) (rest : List (Except String α)) (r : ScrapingResult α),
      processItemsFrom idx (as.map Except.ok ++ rest) r
        = processItemsFrom (idx + as.length) rest
            { r with products := r.products ++ as,
                     successful := r.successful + as.length } := by
  induction as with
  | nil => intro idx rest r; simp [processItemsFrom]
  | cons a as ih =>
    intro idx rest r
    simp only [List.map_cons, List.cons_append, processItemsFrom, List.append_eq]
    rw [ih]
    show processItemsFrom (idx + 1 + as.length) rest
        { r with products := (r.products ++ [a]) ++ as,
                 successful := r.successful + 1 + as.length }
      = processItemsFrom (idx + (a :: as).length) rest
        { r with products := r.products ++ a :: as,
                 successful := r.successful + (a :: as).length }
    rw [show idx + 1 + as.length = idx + (a :: as).length from by
          simp only [List.length_cons]; omega,
        show (r.products ++ [a]) ++ as = r.products ++ a :: as from by simp,
        show r.successful + 1 + as.length = r.successful + (a :: as).length from by
          simp only [List.length_cons]; omega]

lemma processItemsFrom_oks {α : Type} (bs : List α) (idx : Nat) (r : ScrapingResult α) :
    processItemsFrom idx (bs.map Except.ok) r
      = { r with products := r.products ++ bs,
                 successful := r.successful + bs.length } := by
  have h := processItemsFrom_ok_front bs idx [] r
  simpa [processItemsFrom] using h

/-- C4: on a page yielding `as.length + 1 + bs.length` listing items of
which exactly the one at position `as.length` fails extraction, the
Result still gains all other Product Records in order, gains exactly one
failure and exactly one error naming that position, and pagination
continues to the next page (the failure aborts neither the remaining
items, which appear in `bs`, nor the remaining pages). -/
theorem c4_item_isolation :
    ∀ (α : Type) (as bs : List α) (e : String) (r : ScrapingResult α),
      ((processItemsFrom 0 (as.map Except.ok ++ Except.error e :: bs.map Except.ok) r).products
          = r.products ++ (as ++ bs))
      ∧ ((processItemsFrom 0 (as.map Except.ok ++ Except.error e :: bs.map Except.ok) r).successful
          = r.successful + (as.length + bs.length))
      ∧ ((processItemsFrom 0 (as.map Except.ok ++ Except.error e :: bs.map Except.ok) r).failed
          = r.failed + 1)
      ∧ ((processItemsFrom 0 (as.map Except.ok ++ Except.error e :: bs.map Except.ok) r).errors
          = r.errors ++ [mkItemError as.length e])
      ∧ (∀ (site : Nat → Option (List (Except String α))) (fuel page : Nat)
            (visited : List Nat),
          site page = some (as.map Except.ok ++ Except.error e :: bs.map Except.ok) →
          scrapeGo site (fuel + 1) page r visited
            = scrapeGo site fuel (page + 1)
                (processItemsFrom 0 (as.map Except.ok ++ Except.error e :: bs.map Except.ok) r)
                (visited ++ [page])) := by
  intro α as bs e r
  have key : processItemsFrom 0 (as.map Except.ok ++ Except.error e :: bs.map Except.ok) r
      = { r with products := r.products ++ (as ++ bs),
                 successful := r.successful + (as.length + bs.length),
                 failed := r.failed + 1,
                 errors := r.errors ++ [mkItemError as.length e] } := by
    rw [processItemsFrom_ok_front]
    simp only [processItemsFrom]
    rw [processItemsFrom_oks]
    simp [List.append_assoc, Nat.add_assoc]
  refine ⟨by rw [key], by rw [key], by rw [key], by rw [key], ?_⟩
  intro site fuel page visited hsite
  have hne : (as.map Except.ok ++ Except.error e :: bs.map Except.ok).isEmpty = false := by
    cases as <;> simp
  simp [scrapeGo, hsite, hne]

theorem c4_witness :
    ((processItemsFrom 0
        ([10].map Except.ok ++ Except.error "bad" :: [20, 30].map Except.ok)
        (emptyResult : ScrapingResult Nat)).products = [10, 20, 30])
    ∧ ((processItemsFrom 0
        ([10].map Except.ok ++ Except.error "bad" :: [20, 30].map Except.ok)
        (emptyResult : ScrapingResult Nat)).errors = [mkItemError 1 "bad"])
    ∧ scrapeGo
        (fun p => if p = 1
          then some ([10].map Except.ok ++ Except.error "bad" :: [20, 30].map Except.ok)
          else some [])
        2 1 (emptyResult : ScrapingResult Nat) []
      = scrapeGo
          (fun p => if p = 1
            then some ([10].map Except.ok ++ Except.error "bad" :: [20, 30].map Except.ok)
            else some [])
          1 2
          (processItemsFrom 0
            ([10].map Except.ok ++ Except.error "bad" :: [20, 30].map Except.ok)
            (emptyResult : ScrapingResult Nat))
          ([] ++ [1]) :=
  ⟨(c4_item_isolation Nat [10] [20, 30] "bad" emptyResult).1,
   (c4_item_isolation Nat [10] [20, 30] "bad" emptyResult).2.2.2.1,
   (c4_item_isolation Nat [10] [20, 30] "bad" emptyResult).2.2.2.2
     (fun p => if p = 1
        then some ([10].map Except.ok ++ Except.error "bad" :: [20, 30].map Except.ok)
        else some [])
     1 1 [] rfl⟩

lemma scrapeGo_range {α : Type} (site : Nat → Option (List (Except String α)))
    (fuel : Nat) : ∀ (page : Nat) (r : ScrapingResult α) (visited : List Nat) (q : Nat),
      q ∈ (scrapeGo site fuel page r visited).2 →
        q ∈ visited ∨ (page ≤ q ∧ q < page + fuel) := by
  induction fuel with
  | zero =>
    intro page r visited q hq
    simp only [scrapeGo] at hq
    exact Or.inl hq
  | succ f ih =>
    intro page r visited q hq
    cases hs : site page with
    | none =>
      simp only [scrapeGo, hs] at hq
      rcases List.mem_append.mp hq with h | h
      · exact Or.inl h
      · simp only [List.mem_singleton] at h
        subst h
        exact Or.inr ⟨Nat.le_refl _, by omega⟩
    | some items =>
      cases he : items.isEmpty with
      | true =>
        simp only [scrapeGo, hs, he, if_true] at hq
        rcases List.mem_append.mp hq with h | h
        · exact Or.inl h
        · simp only [List.mem_singleton] at h
          subst h
          exact Or.inr ⟨Nat.le_refl _, by omega⟩
      | false =>
        have hstep : scrapeGo site (f + 1) page r visited
            = scrapeGo site f (page + 1) (processItemsFrom 0 items r) (visited ++ [page]) := by
          simp [scrapeGo, hs, he]
        rw [hstep] at hq
        rcases ih (page + 1) (processItemsFrom 0 items r) (visited ++ [page]) q hq with
          hin | ⟨h1, h2⟩
        · rcases List.mem_append.mp hin with h | h
          · exact Or.inl h
          · simp only [List.mem_singleton] at h
            subst h
            exact Or.inr ⟨Nat.le_refl _, by omega⟩
        · exact Or.inr ⟨by omega, by omega⟩

lemma scrapeGo_empty_last {α : Type} (site : Nat → Option (List (Except String α)))
    (fuel : Nat) : ∀ (page : Nat) (r : ScrapingResult α) (visited : List Nat),
      (∀ q ∈ visited, site q ≠ some []) →
      ∀ q ∈ (scrapeGo site fuel page r visited).2, site q = some [] →
        (scrapeGo site fuel page r visited).2.getLast? = some q := by
  induction fuel with
  | zero =>
    intro page r visited hv q hq hsq
    simp only [scrapeGo] at hq
    exact absurd hsq (hv q hq)
  | succ f ih =>
    intro page r visited hv q hq hsq
    cases hs : site page with
    | none =>
      simp only [scrapeGo, hs] at hq ⊢
      rcases List.mem_append.mp hq with h | h
      · exact absurd hsq (hv q h)
      · simp only [List.mem_singleton] at h
        subst h
        rw [hs] at hsq
        simp at hsq
    | some items =>
      cases he : items.isEmpty with
      | true =>
        simp only [scrapeGo, hs, he, if_true] at hq ⊢
        rcases List.mem_append.mp hq with h | h
        · exact absurd hsq (hv q h)
        · simp only [List.mem_singleton] at h
          subst h
          exact List.getLast?_concat _
      | false =>
        have hstep : scrapeGo site (f + 1) page r visited
            = scrapeGo site f (page + 1) (processItemsFrom 0 items r) (visited ++ [page]) := by
          simp [scrapeGo, hs, he]
        rw [hstep] at hq ⊢
        refine ih (page + 1) (processItemsFrom 0 items r) (visited ++ [page]) ?_ q hq hsq
        intro x hx
        rcases List.mem_append.mp hx with h | h
        · exact hv x h
        · simp only [List.mem_singleton] at h
          subst h
          rw [hs]
          intro hcon
          have hnil : items = [] := by injection hcon
          rw [hnil] at he
          simp at he

/-- C5: pagination visits only pages between 1 and the configured limit,
and a visited page on which the adapter yields zero listing items is the
last page visited — no page is visited after it. -/
theorem c5_pagination_bounds :
    (∀ (α : Type) (site : Nat → Option (List (Except String α))) (limit q : Nat),
      q ∈ (scrape site limit).2 → 1 ≤ q ∧ q ≤ limit)
    ∧ (∀ (α : Type) (site : Nat → Option (List (Except String α))) (limit q : Nat),
      q ∈ (scrape site limit).2 → site q = some [] →
        (scrape site limit).2.getLast? = some q) := by
  constructor
  · intro α site limit q hq
    simp only [scrape] at hq
    rcases scrapeGo_range site limit 1 emptyResult [] q hq with h | ⟨h1, h2⟩
    · simp at h
    · exact ⟨h1, by omega⟩
  · intro α site limit q hq hsq
    simp only [scrape] at hq ⊢
    exact scrapeGo_empty_last site limit 1 emptyResult [] (by simp) q hq hsq

theorem c5_witness :
    ((1 : Nat) ≤ 2 ∧ 2 ≤ 3)
    ∧ (scrape (fun p => if p = 1 then some [Except.ok (1 : Nat)] else some []) 3).2.getLast?
        = some 2 :=
  ⟨c5_pagination_bounds.1 Nat (fun p => if p = 1 then some [Except.ok 1] else some [])
      3 2 (by decide),
   c5_pagination_bounds.2 Nat (fun p => if p = 1 then some [Except.ok 1] else some [])
      3 2 (by decide) rfl⟩

/-- C6: in the managed scraper scope, whatever the body does short of
releasing the session itself — normal return, an exception raised
mid-`scrape()`, or an interruption — the session release count on scope
exit is exactly one more than on entry, and the body outcome propagates
unchanged. -/
theorem c6_session_release :
    ∀ (α : Type) (body : SessionState → BodyOutcome α × SessionState) (st : SessionState),
      (∀ s, (body s).2.released = s.released) →
      (managedScrape body st).2.released = st.released + 1
      ∧ (managedScrape body st).1 = (body (acquireSession st)).1 := by
  intro α body st hbody
  constructor
  · simp [managedScrape, releaseSession, hbody, acquireSession]
  · rfl

theorem c6_witness :
    (managedScrape (fun s => ((BodyOutcome.raised "mid-scrape failure" : BodyOutcome Nat), s))
        (SessionState.mk 0 0)).2.released = 0 + 1
    ∧ (managedScrape (fun s => ((BodyOutcome.raised "mid-scrape failure" : BodyOutcome Nat), s))
        (SessionState.mk 0 0)).1 = BodyOutcome.raised "mid-scrape failure" :=
  c6_session_release Nat (fun s => (BodyOutcome.raised "mid-scrape failure", s))
    (SessionState.mk 0 0) (fun _ => rfl)
